import Mathlib

/-! # Datasource plugin wrapper (v2) and the search sort-option registry

A shallow embedding of

* `pkg/plugins/datasource/wrapper/datasource_plugin_wrapper_v2.go`
  (`NewDatasourcePluginWrapperV2`, `DatasourcePluginWrapperV2.Query`), and
* `pkg/services/search/sorting.go`
  (`SearchService.RegisterSortOption`, `SearchService.SortOptions`),

followed by the properties proved about them.

Conventions of the embedding:

* Go `int64` values that the code only copies are `Int`; the one place where
  the code computes with an `int64` (`UnixNano() / int64(time.Millisecond)`)
  is modelled with explicit 64-bit wrap-around.
* `[]byte` is `List UInt8`; Go strings are `String` (protobuf strings are
  valid UTF-8).
* a Go `map[string]V` is an association list whose list order stands for the
  (unspecified) iteration order; a well-formed map has pairwise distinct keys.
* a Go result `(v, err)` of which exactly one is set is `Except GoError V`.
* collaborators whose bodies are not part of the two files (the JSON
  marshaller, the secret decryption, the time-range conversions) are fields of
  `Env`.
-/

/-! ## Go maps -/

/-- Go `map[string]V`: the entries in iteration order. -/
abbrev GoMap (V : Type) := List (String × V)

/-- The keys of a map, in iteration order. -/
def GoMap.keys {V : Type} (m : GoMap V) : List String := m.map Prod.fst

/-- Map index expression `m[k]` (with the `ok` flag as `Option`). -/
def GoMap.get {V : Type} (m : GoMap V) (k : String) : Option V :=
  match m with
  | [] => none
  | (k', v) :: rest => if k' = k then some v else GoMap.get rest k

/-- Map assignment `m[k] = v`: overwrites the entry of an existing key,
otherwise adds a new entry. -/
def GoMap.set {V : Type} (m : GoMap V) (k : String) (v : V) : GoMap V :=
  match m with
  | [] => [(k, v)]
  | (k', v') :: rest => if k' = k then (k, v) :: rest else (k', v') :: GoMap.set rest k v

namespace Wrapper

/-! ## Basic data -/

/-- Go `[]byte`. -/
abbrev Bytes := List UInt8

/-- A Go `error` value, identified by the text its `Error()` method returns. -/
structure GoError where
  msg : String
  deriving DecidableEq, Repr

/-- The data a `simplejson.Json` can hold (`interface{}`): the generic JSON
shapes, and a raw byte slice. -/
inductive Json where
  | null : Json
  | bool (b : Bool) : Json
  | num (n : Int) : Json
  | str (s : String) : Json
  | arr (xs : List Json) : Json
  | obj (kvs : List (String × Json)) : Json
  | bytes (b : Bytes) : Json

/-! ## `time.Time` and `UnixNano` -/

/-- The bounds of Go `int64`. -/
def wrapInt64 (x : Int) : Int := (x + 2 ^ 63) % 2 ^ 64 - 2 ^ 63

/-- A `time.Time` instant: whole seconds since the Unix epoch and the
nanoseconds within that second (`0 ≤ nsec < 10^9`). -/
structure Time where
  sec : Int
  nsec : Fin 1000000000

/-- The exact number of nanoseconds since the Unix epoch. -/
def Time.nanos (t : Time) : Int := t.sec * 1000000000 + (t.nsec.val : Int)

/-- Go `Time.UnixNano`: `t.unixSec()*1e9 + int64(t.nsec())` in `int64`
arithmetic. -/
def Time.UnixNano (t : Time) : Int := wrapInt64 (t.sec * 1000000000 + (t.nsec.val : Int))

/-- Go `time.Millisecond` as a number of nanoseconds. -/
def Millisecond : Int := 1000000

/-- The zero `time.Time` (January 1, year 1, 00:00:00 UTC). -/
def Time.zero : Time := { sec := -62135596800, nsec := 0 }

/-! ## Host-side model (`models`, `tsdb`) -/

/-- The fields of `models.DataSource` that `Query` reads. `DsType` is the Go
field `Type`. -/
structure DataSource where
  Id : Int
  OrgId : Int
  Name : String
  DsType : String
  Url : String
  Database : String
  User : String
  BasicAuth : Bool
  BasicAuthUser : String
  JsonData : Json
  SecureJsonData : GoMap Bytes
  Updated : Time

/-- The fields of `models.SignedInUser` that `Query` reads; `OrgRole` is a
`models.RoleType`, a Go string type. -/
structure SignedInUser where
  Name : String
  Login : String
  Email : String
  OrgRole : String

/-- Go `tsdb.TimeRange`. -/
structure TimeRange where
  From : String
  To : String
  now : Time

/-- The fields of `tsdb.Query` that `Query` reads. -/
structure Query where
  RefId : String
  Model : Json
  MaxDataPoints : Int
  IntervalMs : Int

/-- Go `tsdb.TsdbQuery`. -/
structure TsdbQuery where
  TimeRange : TimeRange
  Queries : List Query
  User : Option SignedInUser

/-- Go `tsdb.QueryResult`, with the fields `Query` sets. -/
structure QueryResult where
  Error : Option GoError
  ErrorString : String
  RefId : String
  Meta : Option Json
  Dataframes : List Bytes

/-- Go `tsdb.Response`. -/
structure Response where
  Results : GoMap QueryResult

/-! ## Wire model (`pluginv2`) -/

/-- Go `pluginv2.DataSourceConfig`. -/
structure DataSourceConfig where
  Id : Int
  Name : String
  Url : String
  User : String
  Database : String
  BasicAuthEnabled : Bool
  BasicAuthUser : String
  JsonData : Bytes
  DecryptedSecureJsonData : GoMap String

/-- Go `pluginv2.PluginConfig`, with the fields the struct literal sets. -/
structure PluginConfig where
  OrgId : Int
  PluginId : String
  LastUpdatedMS : Int
  DatasourceConfig : DataSourceConfig

/-- Go `pluginv2.User`. -/
structure User where
  Login : String
  Name : String
  Email : String
  Role : String

/-- Go `pluginv2.TimeRange`. -/
structure WireTimeRange where
  FromEpochMS : Int
  ToEpochMS : Int

/-- Go `pluginv2.DataQuery`. -/
structure DataQuery where
  RefId : String
  MaxDataPoints : Int
  IntervalMS : Int
  TimeRange : WireTimeRange
  Json : Bytes

/-- Go `pluginv2.QueryDataRequest`. -/
structure QueryDataRequest where
  Config : PluginConfig
  User : Option User
  Queries : List DataQuery

/-- Go `pluginv2.DataResponse`. -/
structure DataResponse where
  Frames : List Bytes
  Error : String
  JsonMeta : Bytes

/-- Go `pluginv2.QueryDataResponse`. -/
structure QueryDataResponse where
  Responses : GoMap DataResponse

/-! ## `fmt.Errorf` with a format string and no operands

`Query` calls `fmt.Errorf(pRes.Error)`: the plugin's error text is the
*format string* and the operand list is empty. The definitions below follow
`(*pp).doPrintf` of Go's `fmt` package for an empty operand list. With no
operands the flag, width and precision values never reach the output; what
does reach it are the literal text and the diagnostics `%!(NOVERB)`,
`%!(BADWIDTH)`, `%!(BADPREC)`, `%!v(BADINDEX)` and `%!v(MISSING)`. -/

namespace Fmt

/-- Go `noVerbString`. -/
def noVerbString : List Char := "%!(NOVERB)".toList

/-- Go `badWidthString`. -/
def badWidthString : List Char := "%!(BADWIDTH)".toList

/-- Go `badPrecString`. -/
def badPrecString : List Char := "%!(BADPREC)".toList

/-- Go `(*pp).badArgNum`. -/
def badArgNum (verb : Char) : List Char := "%!".toList ++ verb :: "(BADINDEX)".toList

/-- Go `(*pp).missingArg`. -/
def missingArg (verb : Char) : List Char := "%!".toList ++ verb :: "(MISSING)".toList

/-- The flag loop of `doPrintf`: skips `#`, `0`, `+`, `-` and space. (The fast
path for simple verbs needs `argNum < len(a)` and is never taken here.) -/
def skipFlags : List Char → List Char
  | [] => []
  | c :: cs =>
    if c = '#' ∨ c = '0' ∨ c = '+' ∨ c = '-' ∨ c = ' ' then skipFlags cs else c :: cs

/-- Go `tooLarge`. -/
def tooLarge (x : Nat) : Bool := decide (x > 1000000)

/-- The loop of Go `parsenum` on `s[newi:end]`, with the number read so far.
Yields `(num, isnum, s[newi:end])`; on a too large number Go returns
`newi = end`, that is, nothing is left. -/
def parsenumLoop : List Char → Nat → Bool → Nat × Bool × List Char
  | [], num, isnum => (num, isnum, [])
  | c :: cs, num, isnum =>
    if '0' ≤ c ∧ c ≤ '9' then
      if tooLarge num then (0, false, [])
      else parsenumLoop cs (num * 10 + (c.toNat - '0'.toNat)) true
    else (num, isnum, c :: cs)

/-- Go `parsenum(s, start, end)` on the text `s[start:end]`. -/
def parsenum (s : List Char) : Nat × Bool × List Char := parsenumLoop s 0 false

/-- Go `parseArgNumber(format)`, for `format` starting with `[`: yields
`(wid, ok)`, the number of characters to skip and whether `[n]` was read. -/
def parseArgNumber (format : List Char) : Nat × Bool :=
  if format.length < 3 then (1, false)
  else
    let tl := format.drop 1
    let inner := tl.takeWhile (fun c => c != ']')
    if inner.length < tl.length then
      -- the closing bracket is at index `inner.length + 1`
      match parsenum inner with
      | (_, true, []) => (inner.length + 2, true)
      | _ => (inner.length + 2, false)
    else (1, false)

/-- Go `(*pp).argNumber` with `numArgs = 0`: yields the rest of the format,
`found`, and the new value of `goodArgNum`. No index is in range, so a
bracket always clears `goodArgNum`. -/
def argNumber (format : List Char) (goodArgNum : Bool) : List Char × Bool × Bool :=
  match format with
  | '[' :: _ =>
    let r := parseArgNumber format
    (format.drop r.1, r.2, false)
  | _ => (format, false, goodArgNum)

/-- The width part of `doPrintf`: yields the text written, the rest of the
format, `afterIndex` and `goodArgNum`. -/
def width (format : List Char) (afterIndex goodArgNum : Bool) :
    List Char × List Char × Bool × Bool :=
  match format with
  | '*' :: rest => (badWidthString, rest, false, goodArgNum)
  | _ =>
    let r := parsenum format
    ([], r.2.2, afterIndex, if afterIndex && r.2.1 then false else goodArgNum)

/-- The precision part of `doPrintf`, same results as `width`. -/
def precision (format : List Char) (afterIndex goodArgNum : Bool) :
    List Char × List Char × Bool × Bool :=
  match format with
  | '.' :: rest =>
    let good := if afterIndex then false else goodArgNum
    let a := argNumber rest good
    match a.1 with
    | '*' :: rest2 => (badPrecString, rest2, false, a.2.2)
    | _ => ([], (parsenum a.1).2.2, a.2.1, a.2.2)
  | _ => ([], format, afterIndex, goodArgNum)

/-- The last part of one verb: the text written and the rest of the format. -/
def verb (format : List Char) (goodArgNum : Bool) : List Char × List Char :=
  match format with
  | [] => (noVerbString, [])
  | v :: rest =>
    if v = '%' then (['%'], rest)
    else if !goodArgNum then (badArgNum v, rest)
    else (missingArg v, rest)

/-- One verb of `doPrintf`, from the character after `%`: the text written
and the rest of the format. -/
def verbStep (format : List Char) : List Char × List Char :=
  let s0 := skipFlags format
  let a := argNumber s0 true
  let w := width a.1 a.2.1 a.2.2
  let p := precision w.2.1 w.2.2.1 w.2.2.2
  let b := if p.2.2.1 then (p.2.1, true, p.2.2.2) else argNumber p.2.1 p.2.2.2
  let v := verb b.1 b.2.2
  (w.1 ++ p.1 ++ v.1, v.2)

/-- The format loop of `doPrintf` for an empty operand list. Each round
consumes at least one character, so `fuel = len(format)` rounds suffice
(`doPrintf_fuel`). -/
def doPrintf : Nat → List Char → List Char
  | 0, _ => []
  | _ + 1, [] => []
  | fuel + 1, c :: cs =>
    if c = '%' then
      let r := verbStep cs
      r.1 ++ doPrintf fuel r.2
    else c :: doPrintf fuel cs

/-- Go `fmt.Sprintf(format)`. -/
def Sprintf (format : String) : String :=
  String.mk (doPrintf format.toList.length format.toList)

/-- Go `fmt.Errorf(format)`: with no operand there is no `%w` operand to wrap,
and the result is `errors.New(Sprintf(format))`. -/
def Errorf (format : String) : GoError := { msg := Sprintf format }

end Fmt

/-! ## Collaborators -/

/-- The functions `Query` calls whose bodies are outside the two files. -/
structure Env where
  /-- Go `(*simplejson.Json).MarshalJSON`. -/
  MarshalJSON : Json → Except GoError Bytes
  /-- Go `(*models.DataSource).DecryptedValues`. -/
  DecryptedValues : DataSource → GoMap String
  /-- Go `(*tsdb.TimeRange).GetToAsMsEpoch`. -/
  GetToAsMsEpoch : TimeRange → Int
  /-- Go `(*tsdb.TimeRange).GetFromAsMsEpoch`. -/
  GetFromAsMsEpoch : TimeRange → Int

/-- Go `simplejson.NewFromAny(data)`, whose package is outside the two files:
`return &Json{data: data}`. The new `Json` holds the value it is given as it
is; nothing is decoded. `Query` gives it a `[]byte`. -/
def NewFromAny (data : Bytes) : Json := .bytes data

/-- Go `log.Logger`; `Query` does not use it. -/
structure Logger where
  name : String

/-- Go `backendplugin.DataPlugin`: the query capability of the plugin. The
call yields a response or an error. -/
structure DataPlugin where
  QueryData : QueryDataRequest → Except GoError QueryDataResponse

/-- Go `DatasourcePluginWrapperV2`. -/
structure DatasourcePluginWrapperV2 where
  DataPlugin : DataPlugin
  logger : Logger
  pluginId : String
  pluginType : String

/-- Go `NewDatasourcePluginWrapperV2`. -/
def NewDatasourcePluginWrapperV2 (log : Logger) (pluginId pluginType : String)
    (plugin : DataPlugin) : DatasourcePluginWrapperV2 :=
  { DataPlugin := plugin, logger := log, pluginId := pluginId, pluginType := pluginType }

/-- What the closure handed to `InstrumentPluginRequest` reads and writes: the
captured variable `pbRes` and the record of the `QueryData` calls made so
far (the requests, in call order). -/
structure CallState where
  pbRes : Option QueryDataResponse
  calls : List QueryDataRequest

/-- Modelled from the spec: `backendplugin.InstrumentPluginRequest`, whose
body is not in the files at hand. Spec §4.3: it "wraps exactly one call" to
the function it is given, records the outcome and the duration, and "any
error returned by the plugin call is propagated unchanged". The recorded
metrics are not part of the model. -/
def InstrumentPluginRequest (_pluginID _endpoint : String)
    (fn : CallState → Option GoError × CallState) (st : CallState) :
    Option GoError × CallState :=
  fn st

/-- The outcome of one run of `Query`: the returned pair as an `Except`
(`(nil, err)` or `(tR, nil)`) and the requests that were handed to the
plugin's `QueryData`, in call order. -/
structure QueryRun where
  result : Except GoError Response
  calls : List QueryDataRequest

/-- The loop over `query.Queries` (source lines 63-78). -/
def queriesLoop (env : Env) (query : TsdbQuery) :
    List Query → QueryDataRequest → Except GoError QueryDataRequest
  | [], pbQuery => .ok pbQuery
  | q :: rest, pbQuery =>
    match env.MarshalJSON q.Model with
    | .error err => .error err
    | .ok modelJSON =>
      queriesLoop env query rest
        { pbQuery with
          Queries := pbQuery.Queries ++
            [{ Json := modelJSON
               IntervalMS := q.IntervalMs
               RefId := q.RefId
               MaxDataPoints := q.MaxDataPoints
               TimeRange :=
                 { ToEpochMS := env.GetToAsMsEpoch query.TimeRange
                   FromEpochMS := env.GetFromAsMsEpoch query.TimeRange } }] }

/-- The request `Query` builds before it calls the plugin (source lines
29-78), or the error it returns instead. -/
def buildRequest (env : Env) (tw : DatasourcePluginWrapperV2) (ds : DataSource)
    (query : TsdbQuery) : Except GoError QueryDataRequest :=
  match env.MarshalJSON ds.JsonData with
  | .error err => .error err
  | .ok jsonDataBytes =>
    let pbQuery : QueryDataRequest :=
      { Config :=
          { OrgId := ds.OrgId
            PluginId := tw.pluginId
            LastUpdatedMS := Int.tdiv ds.Updated.UnixNano Millisecond
            DatasourceConfig :=
              { Id := ds.Id
                Name := ds.Name
                Url := ds.Url
                Database := ds.Database
                User := ds.User
                BasicAuthEnabled := ds.BasicAuth
                BasicAuthUser := ds.BasicAuthUser
                JsonData := jsonDataBytes
                DecryptedSecureJsonData := env.DecryptedValues ds } }
        User := none
        Queries := [] }
    let pbQuery : QueryDataRequest :=
      match query.User with
      | some u =>
        { pbQuery with
          User := some { Name := u.Name, Login := u.Login, Email := u.Email, Role := u.OrgRole } }
      | none => pbQuery
    queriesLoop env query query.Queries pbQuery

/-- The body of the loop over `pbRes.Responses` (source lines 97-107): the
`tsdb.QueryResult` built for one entry. -/
def toQueryResult (refID : String) (pRes : DataResponse) : QueryResult :=
  let qr : QueryResult :=
    { RefId := refID, Dataframes := pRes.Frames, Error := none, ErrorString := "", Meta := none }
  let qr : QueryResult :=
    if pRes.JsonMeta.length ≠ 0 then { qr with Meta := some (NewFromAny pRes.JsonMeta) }
    else qr
  let qr : QueryResult :=
    if pRes.Error ≠ "" then
      { qr with Error := some (Fmt.Errorf pRes.Error), ErrorString := pRes.Error }
    else qr
  qr

/-- The loop over `pbRes.Responses` (source lines 96-109). -/
def responsesLoop : GoMap DataResponse → GoMap QueryResult → GoMap QueryResult
  | [], results => results
  | (refID, pRes) :: rest, results =>
    responsesLoop rest (GoMap.set results refID (toQueryResult refID pRes))

/-- Go `(*DatasourcePluginWrapperV2).Query`. -/
def DatasourcePluginWrapperV2.Query (env : Env) (tw : DatasourcePluginWrapperV2)
    (ds : DataSource) (query : TsdbQuery) : QueryRun :=
  match buildRequest env tw ds query with
  | .error err => { result := .error err, calls := [] }
  | .ok pbQuery =>
    let r := InstrumentPluginRequest ds.DsType "dataquery"
      (fun st =>
        match tw.DataPlugin.QueryData pbQuery with
        | .ok res => (none, { pbRes := some res, calls := st.calls ++ [pbQuery] })
        | .error err => (some err, { pbRes := st.pbRes, calls := st.calls ++ [pbQuery] }))
      { pbRes := none, calls := [] }
    match r.1, r.2.pbRes with
    | some err, _ => { result := .error err, calls := r.2.calls }
    | none, some pbRes =>
      { result := .ok { Results := responsesLoop pbRes.Responses [] }, calls := r.2.calls }
    | none, none =>
      -- not reached: `pbRes` is set whenever the call yields no error
      { result := .ok { Results := [] }, calls := r.2.calls }

/-! ## Fixtures for the concrete instances -/

/-- A marshaller that encodes `null` and objects and rejects raw byte
values. -/
def demoMarshal : Json → Except GoError Bytes
  | .null => .ok [110, 117, 108, 108]
  | .bytes _ => .error { msg := "json: unsupported value" }
  | _ => .ok [123, 125]

/-- A concrete set of collaborators. -/
def demoEnv : Env :=
  { MarshalJSON := demoMarshal
    DecryptedValues := fun ds => ds.SecureJsonData.map (fun kv => (kv.1, "secret"))
    GetToAsMsEpoch := fun tr => Int.tdiv tr.now.UnixNano Millisecond
    GetFromAsMsEpoch := fun tr => Int.tdiv tr.now.UnixNano Millisecond - 3600000 }

/-- A datasource last updated at 2020-01-01T00:00:00.5Z. -/
def demoDs : DataSource :=
  { Id := 7, OrgId := 1, Name := "prom", DsType := "prometheus", Url := "http://localhost:9090"
    Database := "", User := "admin", BasicAuth := true, BasicAuthUser := "ba"
    JsonData := .obj [], SecureJsonData := [("password", [1, 2, 3])]
    Updated := { sec := 1577836800, nsec := 500000000 } }

/-- The same datasource with the zero time as last update. -/
def zeroTimeDs : DataSource := { demoDs with Updated := Time.zero }

/-- The same datasource with settings that cannot be serialized. -/
def badSettingsDs : DataSource := { demoDs with JsonData := .bytes [] }

/-- A time range. -/
def demoRange : TimeRange :=
  { From := "now-1h", To := "now", now := { sec := 1577840400, nsec := 0 } }

/-- Sub-query `A`. -/
def queryA : Query := { RefId := "A", Model := .obj [], MaxDataPoints := 100, IntervalMs := 1000 }

/-- Sub-query `B`. -/
def queryB : Query := { RefId := "B", Model := .null, MaxDataPoints := 50, IntervalMs := 2000 }

/-- A sub-query whose model cannot be serialized. -/
def queryBad : Query := { RefId := "C", Model := .bytes [0], MaxDataPoints := 1, IntervalMs := 1 }

/-- A batch of two sub-queries issued by a user. -/
def demoQuery : TsdbQuery :=
  { TimeRange := demoRange, Queries := [queryA, queryB]
    User := some { Name := "Ann", Login := "ann", Email := "ann@example.org", OrgRole := "Editor" } }

/-- A batch without acting user and without sub-queries. -/
def emptyQuery : TsdbQuery := { TimeRange := demoRange, Queries := [], User := none }

/-- A batch whose second sub-query cannot be serialized. -/
def badQuery : TsdbQuery := { demoQuery with Queries := [queryA, queryBad, queryB] }

/-- A wire response: `A` failed with `boom`, `B` has two frames and metadata
`{}`. -/
def demoResponse : QueryDataResponse :=
  { Responses :=
      [("A", { Frames := [], Error := "boom", JsonMeta := [] }),
       ("B", { Frames := [[1], [2]], Error := "", JsonMeta := [123, 125] })] }

/-- A plugin that answers every request with `demoResponse`. -/
def demoPlugin : DataPlugin := { QueryData := fun _ => .ok demoResponse }

/-- A plugin that fails every request. -/
def failingPlugin : DataPlugin := { QueryData := fun _ => .error { msg := "plugin unavailable" } }

/-- A plugin whose sub-query `A` fails with a text that contains `%`. -/
def percentPlugin : DataPlugin :=
  { QueryData := fun _ =>
      .ok { Responses := [("A", { Frames := [], Error := "disk 100%", JsonMeta := [] })] } }

/-- A wrapper around `demoPlugin`. -/
def demoWrapper : DatasourcePluginWrapperV2 :=
  NewDatasourcePluginWrapperV2 { name := "plugins" } "prometheus-ds" "datasource" demoPlugin

/-! ## Auxiliary notions for the statements -/

/-- The entry that the loop appends for sub-query `q` whose model serialized
to `modelJSON`. -/
def entryFor (env : Env) (query : TsdbQuery) (q : Query) (modelJSON : Bytes) : DataQuery :=
  { Json := modelJSON
    IntervalMS := q.IntervalMs
    RefId := q.RefId
    MaxDataPoints := q.MaxDataPoints
    TimeRange :=
      { ToEpochMS := env.GetToAsMsEpoch query.TimeRange
        FromEpochMS := env.GetFromAsMsEpoch query.TimeRange } }

/-- Entry `dq` is the wire form of sub-query `q`. -/
def IsEntryOf (env : Env) (query : TsdbQuery) (q : Query) (dq : DataQuery) : Prop :=
  env.MarshalJSON q.Model = .ok dq.Json ∧ dq = entryFor env query q dq.Json

/-- Every model of the list serializes. -/
def AllSerialize (env : Env) (qs : List Query) : Prop :=
  ∀ q ∈ qs, ∃ b, env.MarshalJSON q.Model = .ok b

/-- The request before the loop over the sub-queries. -/
def baseRequest (env : Env) (tw : DatasourcePluginWrapperV2) (ds : DataSource)
    (query : TsdbQuery) (jsonDataBytes : Bytes) : QueryDataRequest :=
  { Config :=
      { OrgId := ds.OrgId
        PluginId := tw.pluginId
        LastUpdatedMS := Int.tdiv ds.Updated.UnixNano Millisecond
        DatasourceConfig :=
          { Id := ds.Id
            Name := ds.Name
            Url := ds.Url
            Database := ds.Database
            User := ds.User
            BasicAuthEnabled := ds.BasicAuth
            BasicAuthUser := ds.BasicAuthUser
            JsonData := jsonDataBytes
            DecryptedSecureJsonData := env.DecryptedValues ds } }
    User := query.User.map
      (fun u => { Name := u.Name, Login := u.Login, Email := u.Email, Role := u.OrgRole })
    Queries := [] }

end Wrapper


namespace Search

/-! ## The sort-option registry (`pkg/services/search/sorting.go`) -/

/-- Go `searchstore.TitleSorter`. -/
structure TitleSorter where
  Descending : Bool
  deriving DecidableEq, Repr

/-- Go `searchstore.FilterOrderBy`, an interface: the title sorter of this
package, or a filter supplied by another service. -/
inductive FilterOrderBy where
  | titleSorter (t : TitleSorter) : FilterOrderBy
  | other (name : String) : FilterOrderBy
  deriving DecidableEq, Repr

/-- Go `SortOption`. -/
structure SortOption where
  Name : String
  DisplayName : String
  Description : String
  Filter : FilterOrderBy
  deriving DecidableEq, Repr

/-- Go `sortAlphaAsc`. -/
def sortAlphaAsc : SortOption :=
  { Name := "alpha-asc"
    DisplayName := "A-Z"
    Description := "Sort results in an alphabetically ascending order"
    Filter := .titleSorter { Descending := false } }

/-- Go `sortAlphaDesc`. -/
def sortAlphaDesc : SortOption :=
  { Name := "alpha-desc"
    DisplayName := "Z-A"
    Description := "Sort results in an alphabetically descending order"
    Filter := .titleSorter { Descending := true } }

/-- The field of Go `SearchService` that the two methods use. -/
structure SearchService where
  sortOptions : GoMap SortOption

/-- A service whose registry is the empty map. -/
def SearchService.empty : SearchService := { sortOptions := [] }

/-- Go `(*SearchService).RegisterSortOption`. -/
def SearchService.RegisterSortOption (s : SearchService) (option : SortOption) :
    SearchService :=
  { sortOptions := GoMap.set s.sortOptions option.Name option }

/-- Go `sort.Slice(xs, less)`. The Go routine is not stable and its algorithm
is not fixed by its contract; it is modelled by insertion sort, which Go
itself uses on short slices. For elements that `less` orders strictly the
sorted result does not depend on the algorithm (`sorted_perm_unique`). -/
def sortSlice {α : Type} (less : α → α → Bool) (xs : List α) : List α :=
  List.insertionSort (fun a b => less b a = false) xs

/-- Go `(*SearchService).SortOptions`: the values of the map, in iteration
order, sorted by `Name`. Go compares strings byte by byte, which on UTF-8 text
is the lexicographic order of the code points, `toList <` here (and the order
`<` of `String`, by `String.lt_iff_toList_lt`). -/
def SearchService.SortOptions (s : SearchService) : List SortOption :=
  let opts := s.sortOptions.map Prod.snd
  sortSlice (fun a b => decide (a.Name.toList < b.Name.toList)) opts

/-- A sequence of `RegisterSortOption` calls, in call order. -/
def registerAll (s : SearchService) (ops : List SortOption) : SearchService :=
  ops.foldl SearchService.RegisterSortOption s

/-- The option that the last call with name `o.Name` registered is `o`. -/
def lastRegistered (ops : List SortOption) (o : SortOption) : Prop :=
  ops.reverse.find? (fun p => p.Name = o.Name) = some o

/-- The registry is a well-formed map filed under the option names: the keys
are pairwise distinct and every option is stored under its own `Name`. -/
def SearchService.WellFormed (s : SearchService) : Prop :=
  s.sortOptions.keys.Nodup ∧ ∀ kv ∈ s.sortOptions, kv.1 = kv.2.Name

/-- An option named `recent`. -/
def recentFirst : SortOption :=
  { Name := "recent", DisplayName := "Newest first", Description := "", Filter := .other "newest" }

/-- Another option named `recent`. -/
def recentSecond : SortOption :=
  { Name := "recent", DisplayName := "Oldest first", Description := "", Filter := .other "oldest" }

end Search

/-! # Properties of the plugin wrapper -/

namespace Wrapper

/-! ## Building the request -/

theorem queriesLoop_ok (env : Env) (query : TsdbQuery) (qs : List Query) :
    ∀ pb : QueryDataRequest, AllSerialize env qs →
      ∃ ds : List DataQuery, List.Forall₂ (IsEntryOf env query) qs ds ∧
        queriesLoop env query qs pb = .ok { pb with Queries := pb.Queries ++ ds } := by
  induction qs with
  | nil =>
    intro pb _
    exact ⟨[], List.Forall₂.nil, by simp [queriesLoop]⟩
  | cons q rest ih =>
    intro pb h
    obtain ⟨b, hb⟩ := h q (List.mem_cons_self _ _)
    obtain ⟨ds, hds, hloop⟩ :=
      ih { pb with Queries := pb.Queries ++ [entryFor env query q b] }
        (fun p hp => h p (List.mem_cons_of_mem _ hp))
    refine ⟨entryFor env query q b :: ds, List.Forall₂.cons ⟨hb, rfl⟩ hds, ?_⟩
    simpa [queriesLoop, hb, entryFor] using hloop

theorem queriesLoop_error (env : Env) (query : TsdbQuery) (pre : List Query) (q : Query)
    (post : List Query) (e : GoError) (hq : env.MarshalJSON q.Model = .error e) :
    ∀ pb : QueryDataRequest, AllSerialize env pre →
      queriesLoop env query (pre ++ q :: post) pb = .error e := by
  induction pre with
  | nil =>
    intro pb _
    simp [queriesLoop, hq]
  | cons p rest ih =>
    intro pb h
    obtain ⟨b, hb⟩ := h p (List.mem_cons_self _ _)
    simp only [List.cons_append, queriesLoop, hb]
    exact ih _ (fun x hx => h x (List.mem_cons_of_mem _ hx))

theorem buildRequest_of_settings (env : Env) (tw : DatasourcePluginWrapperV2) (ds : DataSource)
    (query : TsdbQuery) (b : Bytes) (hs : env.MarshalJSON ds.JsonData = .ok b) :
    buildRequest env tw ds query
      = queriesLoop env query query.Queries (baseRequest env tw ds query b) := by
  unfold buildRequest baseRequest
  simp only [hs]
  cases query.User <;> rfl

theorem buildRequest_settings_error (env : Env) (tw : DatasourcePluginWrapperV2)
    (ds : DataSource) (query : TsdbQuery) (e : GoError)
    (hs : env.MarshalJSON ds.JsonData = .error e) :
    buildRequest env tw ds query = .error e := by
  unfold buildRequest
  simp only [hs]

theorem buildRequest_ok (env : Env) (tw : DatasourcePluginWrapperV2) (ds : DataSource)
    (query : TsdbQuery) (b : Bytes) (hs : env.MarshalJSON ds.JsonData = .ok b)
    (hm : AllSerialize env query.Queries) :
    ∃ entries : List DataQuery, List.Forall₂ (IsEntryOf env query) query.Queries entries ∧
      buildRequest env tw ds query
        = .ok { baseRequest env tw ds query b with Queries := entries } := by
  obtain ⟨entries, hrel, hloop⟩ :=
    queriesLoop_ok env query query.Queries (baseRequest env tw ds query b) hm
  refine ⟨entries, hrel, ?_⟩
  rw [buildRequest_of_settings env tw ds query b hs, hloop]
  simp [baseRequest]

theorem queriesLoop_inv (env : Env) (query : TsdbQuery) (qs : List Query) :
    ∀ pb req : QueryDataRequest, queriesLoop env query qs pb = .ok req →
      req.Config = pb.Config ∧ req.User = pb.User ∧ AllSerialize env qs := by
  induction qs with
  | nil =>
    intro pb req h
    simp only [queriesLoop, Except.ok.injEq] at h
    subst h
    exact ⟨rfl, rfl, fun q hq => absurd hq (List.not_mem_nil q)⟩
  | cons q rest ih =>
    intro pb req h
    simp only [queriesLoop] at h
    cases hq : env.MarshalJSON q.Model with
    | error e => simp [hq] at h
    | ok b =>
      simp only [hq] at h
      obtain ⟨h1, h2, h3⟩ := ih _ _ h
      refine ⟨h1, h2, ?_⟩
      intro p hp
      rcases List.mem_cons.mp hp with rfl | hp
      · exact ⟨b, hq⟩
      · exact h3 p hp

/-- The calls that `Query` makes: one call with the built request, or none
when no request could be built. -/
theorem query_calls (env : Env) (tw : DatasourcePluginWrapperV2) (ds : DataSource)
    (query : TsdbQuery) :
    (tw.Query env ds query).calls =
      match buildRequest env tw ds query with
      | .ok req => [req]
      | .error _ => [] := by
  unfold DatasourcePluginWrapperV2.Query InstrumentPluginRequest
  cases hb : buildRequest env tw ds query with
  | error e => rfl
  | ok req =>
    simp only
    cases hp : tw.DataPlugin.QueryData req <;> simp

/-- The result of `Query` once the request is built. -/
theorem query_result (env : Env) (tw : DatasourcePluginWrapperV2) (ds : DataSource)
    (query : TsdbQuery) (req : QueryDataRequest) (hb : buildRequest env tw ds query = .ok req) :
    (tw.Query env ds query).result =
      match tw.DataPlugin.QueryData req with
      | .ok res => .ok { Results := responsesLoop res.Responses [] }
      | .error e => .error e := by
  unfold DatasourcePluginWrapperV2.Query InstrumentPluginRequest
  simp only [hb]
  cases hp : tw.DataPlugin.QueryData req <;> simp

theorem buildRequest_inv (env : Env) (tw : DatasourcePluginWrapperV2) (ds : DataSource)
    (query : TsdbQuery) (req : QueryDataRequest)
    (hb : buildRequest env tw ds query = .ok req) :
    ∃ b, env.MarshalJSON ds.JsonData = .ok b ∧
      req.Config = (baseRequest env tw ds query b).Config ∧
      req.User = (baseRequest env tw ds query b).User ∧
      AllSerialize env query.Queries := by
  cases hs : env.MarshalJSON ds.JsonData with
  | error e =>
    rw [buildRequest_settings_error env tw ds query e hs] at hb
    cases hb
  | ok b =>
    rw [buildRequest_of_settings env tw ds query b hs] at hb
    exact ⟨b, rfl, queriesLoop_inv env query query.Queries _ _ hb⟩

theorem mem_calls (env : Env) (tw : DatasourcePluginWrapperV2) (ds : DataSource)
    (query : TsdbQuery) (req : QueryDataRequest)
    (h : req ∈ (tw.Query env ds query).calls) : buildRequest env tw ds query = .ok req := by
  rw [query_calls] at h
  cases hb : buildRequest env tw ds query with
  | error e => simp [hb] at h
  | ok r =>
    simp only [hb, List.mem_singleton] at h
    rw [h]

/-- Either every model of the list serializes, or there is a first one that
does not. -/
theorem allSerialize_or_first_error (env : Env) (qs : List Query) :
    AllSerialize env qs ∨
      ∃ pre q post e, qs = pre ++ q :: post ∧ AllSerialize env pre ∧
        env.MarshalJSON q.Model = .error e := by
  induction qs with
  | nil => exact Or.inl (fun q hq => absurd hq (List.not_mem_nil q))
  | cons p rest ih =>
    cases hp : env.MarshalJSON p.Model with
    | error e =>
      exact Or.inr ⟨[], p, rest, e, rfl, fun q hq => absurd hq (List.not_mem_nil q), hp⟩
    | ok b =>
      rcases ih with hall | ⟨pre, q, post, e, hsplit, hpre, hq⟩
      · left
        intro x hx
        rcases List.mem_cons.mp hx with rfl | hx
        · exact ⟨b, hp⟩
        · exact hall x hx
      · right
        refine ⟨p :: pre, q, post, e, by rw [hsplit]; rfl, ?_, hq⟩
        intro x hx
        rcases List.mem_cons.mp hx with rfl | hx
        · exact ⟨b, hp⟩
        · exact hpre x hx

/-! ## The request handed to the plugin -/

/-- C1: when the settings and all N models serialize, `Query` hands the plugin
one request; it has exactly N query entries, and entry `i` carries the
reference id, interval, max data points and serialized model of sub-query `i`
and the to/from millisecond epochs of the batch time range. -/
theorem query_request_entries (env : Env) (tw : DatasourcePluginWrapperV2) (ds : DataSource)
    (query : TsdbQuery) (b : Bytes) (hs : env.MarshalJSON ds.JsonData = .ok b)
    (hm : ∀ q ∈ query.Queries, ∃ m, env.MarshalJSON q.Model = .ok m) :
    ∃ req, (tw.Query env ds query).calls = [req] ∧
      req.Queries.length = query.Queries.length ∧
      ∀ (i : Nat) (h₁ : i < query.Queries.length) (h₂ : i < req.Queries.length),
        req.Queries[i].RefId = query.Queries[i].RefId ∧
        req.Queries[i].IntervalMS = query.Queries[i].IntervalMs ∧
        req.Queries[i].MaxDataPoints = query.Queries[i].MaxDataPoints ∧
        env.MarshalJSON query.Queries[i].Model = .ok req.Queries[i].Json ∧
        req.Queries[i].TimeRange.ToEpochMS = env.GetToAsMsEpoch query.TimeRange ∧
        req.Queries[i].TimeRange.FromEpochMS = env.GetFromAsMsEpoch query.TimeRange := by
  obtain ⟨entries, hrel, hreq⟩ := buildRequest_ok env tw ds query b hs hm
  refine ⟨_, by rw [query_calls, hreq], hrel.length_eq.symm, ?_⟩
  intro i h₁ h₂
  have hi := (List.forall₂_iff_get.mp hrel).2 i h₁ h₂
  obtain ⟨hj, he⟩ := hi
  simp only [List.get_eq_getElem] at hj he
  exact ⟨congrArg DataQuery.RefId he, congrArg DataQuery.IntervalMS he,
    congrArg DataQuery.MaxDataPoints he, hj,
    congrArg (fun d => d.TimeRange.ToEpochMS) he,
    congrArg (fun d => d.TimeRange.FromEpochMS) he⟩

theorem query_of_build_error (env : Env) (tw : DatasourcePluginWrapperV2) (ds : DataSource)
    (query : TsdbQuery) (e : GoError) (hb : buildRequest env tw ds query = .error e) :
    (tw.Query env ds query).result = .error e ∧ (tw.Query env ds query).calls = [] := by
  unfold DatasourcePluginWrapperV2.Query
  simp only [hb, and_self]

theorem wrapInt64_of_range (x : Int) (h₁ : -2 ^ 63 ≤ x) (h₂ : x < 2 ^ 63) : wrapInt64 x = x := by
  unfold wrapInt64
  norm_num at h₁ h₂ ⊢
  omega

/-- Truncated division by 10^6 is off by less than 10^6. -/
theorem tdiv_remainder_lt (n : Int) : (n - Int.tdiv n 1000000 * 1000000).natAbs < 1000000 := by
  have hd := Int.tdiv_add_tmod' n 1000000
  have h3 := Int.tmod_lt_of_pos n (show (0 : Int) < 1000000 by norm_num)
  have h4 : -1000000 < Int.tmod n 1000000 := by
    rcases Int.le_total 0 n with hn | hn
    · have := Int.tmod_nonneg (1000000 : Int) hn
      omega
    · have h5 := Int.tdiv_add_tmod' (-n) 1000000
      have h6 := Int.tmod_lt_of_pos (-n) (show (0 : Int) < 1000000 by norm_num)
      have h7 : Int.tdiv (-n) 1000000 = -Int.tdiv n 1000000 := Int.neg_tdiv n 1000000
      omega
  omega

theorem demo_allSerialize : ∀ q ∈ demoQuery.Queries, ∃ m, demoEnv.MarshalJSON q.Model = .ok m := by
  intro q hq
  simp only [demoQuery, List.mem_cons, List.mem_singleton, List.not_mem_nil, or_false] at hq
  rcases hq with rfl | rfl
  · exact ⟨[123, 125], rfl⟩
  · exact ⟨[110, 117, 108, 108], rfl⟩

theorem calls_of_allSerialize (env : Env) (tw : DatasourcePluginWrapperV2) (ds : DataSource)
    (query : TsdbQuery) (b : Bytes) (hs : env.MarshalJSON ds.JsonData = .ok b)
    (hm : AllSerialize env query.Queries) :
    ∃ req, (tw.Query env ds query).calls = [req] := by
  obtain ⟨entries, _, hreq⟩ := buildRequest_ok env tw ds query b hs hm
  exact ⟨_, by rw [query_calls, hreq]⟩

/-- Instance of C1: the two-query batch gives one request with two entries. -/
theorem query_request_entries_witness :
    demoEnv.MarshalJSON demoDs.JsonData = .ok [123, 125] ∧
      ∃ req, (demoWrapper.Query demoEnv demoDs demoQuery).calls = [req] ∧
        req.Queries.length = 2 := by
  obtain ⟨req, h₁, h₂, _⟩ :=
    query_request_entries demoEnv demoWrapper demoDs demoQuery [123, 125] rfl demo_allSerialize
  exact ⟨rfl, req, h₁, h₂⟩

/-- C5: in every request handed to the plugin the user field is absent
exactly when the batch has no acting user; for an acting user it carries the
name, login and email and the role as a string. -/
theorem query_request_user (env : Env) (tw : DatasourcePluginWrapperV2) (ds : DataSource)
    (query : TsdbQuery) (req : QueryDataRequest)
    (h : req ∈ (tw.Query env ds query).calls) :
    (req.User = none ↔ query.User = none) ∧
      ∀ u, query.User = some u →
        req.User = some { Name := u.Name, Login := u.Login, Email := u.Email, Role := u.OrgRole } := by
  obtain ⟨b, _, _, hu, _⟩ := buildRequest_inv env tw ds query req (mem_calls env tw ds query req h)
  rw [hu]
  unfold baseRequest
  cases query.User <;> simp

/-- Instance of C5: the request for the batch issued by Ann names her. -/
theorem query_request_user_witness :
    ∃ req, req ∈ (demoWrapper.Query demoEnv demoDs demoQuery).calls ∧
      req.User = some { Name := "Ann", Login := "ann", Email := "ann@example.org", Role := "Editor" } := by
  obtain ⟨req, h₁⟩ :=
    calls_of_allSerialize demoEnv demoWrapper demoDs demoQuery [123, 125] rfl demo_allSerialize
  have hmem : req ∈ (demoWrapper.Query demoEnv demoDs demoQuery).calls := by
    rw [h₁]; exact List.mem_singleton_self req
  exact ⟨req, hmem, (query_request_user demoEnv demoWrapper demoDs demoQuery req hmem).2 _ rfl⟩

/-- C6: when the settings or the model of any sub-query fail to serialize,
`Query` returns one of these serialization errors and no response, and the
plugin is not called. -/
theorem query_serialization_failure (env : Env) (tw : DatasourcePluginWrapperV2)
    (ds : DataSource) (query : TsdbQuery)
    (h : (∃ e, env.MarshalJSON ds.JsonData = .error e) ∨
      ∃ q ∈ query.Queries, ∃ e, env.MarshalJSON q.Model = .error e) :
    ∃ e, (tw.Query env ds query).result = .error e ∧ (tw.Query env ds query).calls = [] ∧
      (env.MarshalJSON ds.JsonData = .error e ∨
        ∃ q ∈ query.Queries, env.MarshalJSON q.Model = .error e) := by
  cases hs : env.MarshalJSON ds.JsonData with
  | error e =>
    obtain ⟨h₁, h₂⟩ :=
      query_of_build_error env tw ds query e (buildRequest_settings_error env tw ds query e hs)
    exact ⟨e, h₁, h₂, Or.inl rfl⟩
  | ok b =>
    rcases allSerialize_or_first_error env query.Queries with hall | ⟨pre, q, post, e, hsp, hpre, hq⟩
    · exfalso
      rcases h with ⟨e, he⟩ | ⟨q, hq, e, he⟩
      · rw [hs] at he; cases he
      · obtain ⟨m, hm⟩ := hall q hq
        rw [hm] at he; cases he
    · have hb : buildRequest env tw ds query = .error e := by
        rw [buildRequest_of_settings env tw ds query b hs, hsp]
        exact queriesLoop_error env query pre q post e hq _ hpre
      obtain ⟨h₁, h₂⟩ := query_of_build_error env tw ds query e hb
      refine ⟨e, h₁, h₂, Or.inr ⟨q, ?_, hq⟩⟩
      rw [hsp]
      exact List.mem_append_right _ (List.mem_cons_self _ _)

/-- Instance of C6: the batch whose second model cannot be serialized. -/
theorem query_serialization_failure_witness :
    (∃ q ∈ badQuery.Queries, ∃ e, demoEnv.MarshalJSON q.Model = .error e) ∧
      ∃ e, (demoWrapper.Query demoEnv demoDs badQuery).result = .error e ∧
        (demoWrapper.Query demoEnv demoDs badQuery).calls = [] := by
  have hbad : ∃ q ∈ badQuery.Queries, ∃ e, demoEnv.MarshalJSON q.Model = .error e :=
    ⟨queryBad, by simp [badQuery], _, rfl⟩
  obtain ⟨e, h₁, h₂, _⟩ :=
    query_serialization_failure demoEnv demoWrapper demoDs badQuery (Or.inr hbad)
  exact ⟨hbad, e, h₁, h₂⟩

/-- C7: when everything serializes, `Query` calls the plugin exactly once,
and an error of that call is returned as it is, without a response. -/
theorem query_single_invocation (env : Env) (tw : DatasourcePluginWrapperV2) (ds : DataSource)
    (query : TsdbQuery) (b : Bytes) (hs : env.MarshalJSON ds.JsonData = .ok b)
    (hm : ∀ q ∈ query.Queries, ∃ m, env.MarshalJSON q.Model = .ok m) :
    ∃ req, (tw.Query env ds query).calls = [req] ∧
      ∀ e, tw.DataPlugin.QueryData req = .error e →
        (tw.Query env ds query).result = .error e := by
  obtain ⟨entries, _, hreq⟩ := buildRequest_ok env tw ds query b hs hm
  refine ⟨_, by rw [query_calls, hreq], ?_⟩
  intro e he
  rw [query_result env tw ds query _ hreq, he]

/-- Instance of C7: a plugin that fails. -/
theorem query_single_invocation_witness :
    ∃ req,
      ({ demoWrapper with DataPlugin := failingPlugin }.Query demoEnv demoDs demoQuery).calls
        = [req] ∧
      ({ demoWrapper with DataPlugin := failingPlugin }.Query demoEnv demoDs demoQuery).result
        = .error { msg := "plugin unavailable" } := by
  obtain ⟨req, h₁, h₂⟩ :=
    query_single_invocation demoEnv { demoWrapper with DataPlugin := failingPlugin } demoDs
      demoQuery [123, 125] rfl demo_allSerialize
  exact ⟨req, h₁, h₂ _ rfl⟩

/-! ## The config section -/

theorem config_of_mem_calls (env : Env) (tw : DatasourcePluginWrapperV2) (ds : DataSource)
    (query : TsdbQuery) (req : QueryDataRequest)
    (h : req ∈ (tw.Query env ds query).calls) :
    ∃ b, env.MarshalJSON ds.JsonData = .ok b ∧
      req.Config = (baseRequest env tw ds query b).Config := by
  obtain ⟨b, hb, hc, _⟩ := buildRequest_inv env tw ds query req (mem_calls env tw ds query req h)
  exact ⟨b, hb, hc⟩

/-- C8, counterexample: for a datasource whose last update is the zero time,
which is exactly -62135596800000 ms from the epoch, the request carries
-6795364578871 as last-updated value. -/
theorem lastUpdated_zero_time :
    demoEnv.MarshalJSON zeroTimeDs.JsonData = .ok [123, 125] ∧
      zeroTimeDs.Updated.nanos = -62135596800000 * 1000000 ∧
      ∃ req, (demoWrapper.Query demoEnv zeroTimeDs demoQuery).calls = [req] ∧
        req.Config.LastUpdatedMS = -6795364578871 ∧
        req.Config.LastUpdatedMS ≠ -62135596800000 := by
  refine ⟨rfl, by decide, ?_⟩
  obtain ⟨req, h⟩ :=
    calls_of_allSerialize demoEnv demoWrapper zeroTimeDs demoQuery [123, 125] rfl
      demo_allSerialize
  obtain ⟨b, _, hc⟩ :=
    config_of_mem_calls demoEnv demoWrapper zeroTimeDs demoQuery req
      (by rw [h]; exact List.mem_singleton_self req)
  have hv : req.Config.LastUpdatedMS = -6795364578871 := by
    rw [hc]
    show Int.tdiv zeroTimeDs.Updated.UnixNano Millisecond = -6795364578871
    decide
  exact ⟨req, h, hv, by rw [hv]; decide⟩

/-- C8, amended: when the settings serialize to `b`, every request handed to
the plugin carries in its config section the datasource's id, name, URL,
database, user, basic-auth flag and user, the org id, the wrapper's plugin
id, the bytes `b` and the decrypted secret values; and, when the last-updated
time in nanoseconds since the epoch fits in an `int64`, its last-updated value
is that time in milliseconds, truncated toward zero. Such a request is handed
over whenever the models serialize too. -/
theorem request_config (env : Env) (tw : DatasourcePluginWrapperV2) (ds : DataSource)
    (query : TsdbQuery) (b : Bytes) (hs : env.MarshalJSON ds.JsonData = .ok b) :
    (∀ req ∈ (tw.Query env ds query).calls,
      req.Config.OrgId = ds.OrgId ∧
      req.Config.PluginId = tw.pluginId ∧
      req.Config.DatasourceConfig =
        { Id := ds.Id, Name := ds.Name, Url := ds.Url, Database := ds.Database
          User := ds.User, BasicAuthEnabled := ds.BasicAuth
          BasicAuthUser := ds.BasicAuthUser, JsonData := b
          DecryptedSecureJsonData := env.DecryptedValues ds } ∧
      (-2 ^ 63 ≤ ds.Updated.nanos → ds.Updated.nanos < 2 ^ 63 →
        req.Config.LastUpdatedMS = Int.tdiv ds.Updated.nanos 1000000 ∧
        (ds.Updated.nanos - req.Config.LastUpdatedMS * 1000000).natAbs < 1000000)) ∧
    ((∀ q ∈ query.Queries, ∃ m, env.MarshalJSON q.Model = .ok m) →
      ∃ req, (tw.Query env ds query).calls = [req]) := by
  refine ⟨?_, calls_of_allSerialize env tw ds query b hs⟩
  intro req hreq
  obtain ⟨b', hb', hc⟩ := config_of_mem_calls env tw ds query req hreq
  rw [hs] at hb'
  cases hb'
  rw [hc]
  refine ⟨rfl, rfl, rfl, ?_⟩
  intro h₁ h₂
  have hw : ds.Updated.UnixNano = ds.Updated.nanos := wrapInt64_of_range _ h₁ h₂
  have hq : (baseRequest env tw ds query b).Config.LastUpdatedMS
      = Int.tdiv ds.Updated.nanos 1000000 := by
    show Int.tdiv ds.Updated.UnixNano Millisecond = _
    rw [hw]; rfl
  rw [hq]
  refine ⟨rfl, ?_⟩
  exact tdiv_remainder_lt ds.Updated.nanos

/-- Instance of C8 (amended): the datasource updated on 2020-01-01. -/
theorem request_config_witness :
    demoEnv.MarshalJSON demoDs.JsonData = .ok [123, 125] ∧
      ∃ req, (demoWrapper.Query demoEnv demoDs demoQuery).calls = [req] ∧
        req.Config.LastUpdatedMS = 1577836800500 := by
  have h := request_config demoEnv demoWrapper demoDs demoQuery [123, 125] rfl
  obtain ⟨req, hreq⟩ := h.2 demo_allSerialize
  have hm := (h.1 req (by rw [hreq]; exact List.mem_singleton_self req)).2.2.2
    (by decide) (by decide)
  exact ⟨rfl, req, hreq, by rw [hm.1]; decide⟩

/-- C9, counterexample: no function of the request recovers the plugin type
label that the wrapper was built with. -/
theorem pluginType_not_in_request :
    ¬ ∃ label : QueryDataRequest → String, ∀ T : String,
      ∀ req ∈ ((NewDatasourcePluginWrapperV2 { name := "plugins" } "prometheus-ds" T
          demoPlugin).Query demoEnv demoDs demoQuery).calls,
        label req = T := by
  rintro ⟨label, h⟩
  obtain ⟨r₁, h₁⟩ :=
    calls_of_allSerialize demoEnv
      (NewDatasourcePluginWrapperV2 { name := "plugins" } "prometheus-ds" "datasource" demoPlugin)
      demoDs demoQuery [123, 125] rfl demo_allSerialize
  have e₁ := h "datasource" r₁ (by rw [h₁]; exact List.mem_singleton_self r₁)
  have e₂ := h "app" r₁ (by
    have : ((NewDatasourcePluginWrapperV2 { name := "plugins" } "prometheus-ds" "app"
          demoPlugin).Query demoEnv demoDs demoQuery).calls = [r₁] := h₁
    rw [this]; exact List.mem_singleton_self r₁)
  rw [e₁] at e₂
  exact absurd e₂ (by decide)

/-- C9, amended: a wrapper built with plugin type label `T` stores `T`, but
the requests `Query` hands to the plugin are the same for every label; their
config section contains the org id, the plugin id, the last-updated value
and the nested datasource config. -/
theorem request_config_sections (env : Env) (log : Logger) (pluginId T : String)
    (plugin : DataPlugin) (ds : DataSource) (query : TsdbQuery) :
    (NewDatasourcePluginWrapperV2 log pluginId T plugin).pluginType = T ∧
    (∀ T' : String,
      ((NewDatasourcePluginWrapperV2 log pluginId T' plugin).Query env ds query).calls
        = ((NewDatasourcePluginWrapperV2 log pluginId T plugin).Query env ds query).calls) ∧
    ∀ req ∈ ((NewDatasourcePluginWrapperV2 log pluginId T plugin).Query env ds query).calls,
      ∃ b, env.MarshalJSON ds.JsonData = .ok b ∧
        req.Config =
          { OrgId := ds.OrgId
            PluginId := pluginId
            LastUpdatedMS := Int.tdiv ds.Updated.UnixNano Millisecond
            DatasourceConfig :=
              { Id := ds.Id, Name := ds.Name, Url := ds.Url, Database := ds.Database
                User := ds.User, BasicAuthEnabled := ds.BasicAuth
                BasicAuthUser := ds.BasicAuthUser, JsonData := b
                DecryptedSecureJsonData := env.DecryptedValues ds } } := by
  refine ⟨rfl, fun T' => rfl, ?_⟩
  intro req hreq
  obtain ⟨b, hb, hc⟩ := config_of_mem_calls env _ ds query req hreq
  exact ⟨b, hb, hc⟩

/-! ## The result set -/

theorem GoMap.set_of_not_mem {V : Type} (m : GoMap V) (k : String) (v : V)
    (h : k ∉ m.keys) : GoMap.set m k v = m ++ [(k, v)] := by
  induction m with
  | nil => rfl
  | cons kv rest ih =>
    obtain ⟨k', v'⟩ := kv
    simp only [GoMap.keys, List.map_cons, List.mem_cons, not_or] at h
    have hne : ¬ k' = k := fun e => h.1 e.symm
    simp only [GoMap.set, hne, if_false, List.cons_append]
    rw [ih h.2]

theorem GoMap.get_map {V W : Type} (f : String → V → W) (m : GoMap V) (k : String) :
    GoMap.get (m.map (fun kv => (kv.1, f kv.1 kv.2))) k = (GoMap.get m k).map (f k) := by
  induction m with
  | nil => rfl
  | cons kv rest ih =>
    obtain ⟨k', v'⟩ := kv
    simp only [List.map_cons, GoMap.get]
    by_cases hk : k' = k
    · subst hk
      simp
    · simp [hk, ih]

theorem GoMap.get_isSome_iff {V : Type} (m : GoMap V) (k : String) :
    (GoMap.get m k).isSome ↔ k ∈ m.keys := by
  induction m with
  | nil => simp [GoMap.get, GoMap.keys]
  | cons kv rest ih =>
    obtain ⟨k', v'⟩ := kv
    simp only [GoMap.get, GoMap.keys, List.map_cons, List.mem_cons]
    by_cases hk : k' = k
    · subst hk
      simp
    · simp only [hk, if_false]
      rw [ih]
      simp only [GoMap.keys]
      constructor
      · exact Or.inr
      · rintro (h | h)
        · exact absurd h.symm hk
        · exact h

theorem responsesLoop_eq (m : GoMap DataResponse) :
    ∀ acc : GoMap QueryResult, m.keys.Nodup → (∀ k ∈ m.keys, k ∉ acc.keys) →
      responsesLoop m acc
        = acc ++ m.map (fun kv => (kv.1, toQueryResult kv.1 kv.2)) := by
  induction m with
  | nil => intro acc _ _; simp [responsesLoop]
  | cons kv rest ih =>
    intro acc hnd hdis
    obtain ⟨k, v⟩ := kv
    simp only [GoMap.keys, List.map_cons, List.nodup_cons] at hnd
    have hk : k ∉ acc.keys := hdis k (by simp [GoMap.keys])
    simp only [responsesLoop]
    rw [GoMap.set_of_not_mem acc k _ hk, ih _ hnd.2]
    · simp
    · intro k' hk' hmem
      simp only [GoMap.keys, List.map_append, List.map_cons, List.map_nil, List.mem_append,
        List.mem_singleton] at hmem
      rcases hmem with hmem | rfl
      · exact hdis k' (by simp only [GoMap.keys, List.map_cons, List.mem_cons]; exact Or.inr hk') hmem
      · exact hnd.1 hk'

/-- The result of `Query` after a successful plugin call whose response is a
well-formed map. -/
theorem query_result_ok (env : Env) (tw : DatasourcePluginWrapperV2) (ds : DataSource)
    (query : TsdbQuery) (req : QueryDataRequest) (res : QueryDataResponse)
    (hc : req ∈ (tw.Query env ds query).calls) (hp : tw.DataPlugin.QueryData req = .ok res)
    (hk : res.Responses.keys.Nodup) :
    (tw.Query env ds query).result
      = .ok { Results := res.Responses.map (fun kv => (kv.1, toQueryResult kv.1 kv.2)) } := by
  rw [query_result env tw ds query req (mem_calls env tw ds query req hc), hp]
  simp only
  rw [responsesLoop_eq res.Responses [] hk (fun _ _ h => absurd h (List.not_mem_nil _))]
  rfl

/-- C4: after a successful plugin call `Query` returns a result set and no
error; the result set has exactly the keys of the wire response, each once;
the entry for a key carries that key as `RefId`, the frames of the wire entry,
and an error exactly when the wire entry's error string is non-empty. -/
theorem query_result_set (env : Env) (tw : DatasourcePluginWrapperV2) (ds : DataSource)
    (query : TsdbQuery) (req : QueryDataRequest) (res : QueryDataResponse)
    (hc : req ∈ (tw.Query env ds query).calls) (hp : tw.DataPlugin.QueryData req = .ok res)
    (hk : res.Responses.keys.Nodup) :
    ∃ out, (tw.Query env ds query).result = .ok out ∧
      out.Results.keys.Nodup ∧
      (∀ k, k ∈ out.Results.keys ↔ k ∈ res.Responses.keys) ∧
      (∀ k, res.Responses.get k = none → out.Results.get k = none) ∧
      ∀ k pRes, res.Responses.get k = some pRes →
        ∃ qr, out.Results.get k = some qr ∧ qr.RefId = k ∧ qr.Dataframes = pRes.Frames ∧
          (qr.Error = none ↔ pRes.Error = "") := by
  refine ⟨_, query_result_ok env tw ds query req res hc hp hk, ?_, ?_, ?_, ?_⟩
  · simpa [GoMap.keys, Function.comp_def] using hk
  · intro k
    simp [GoMap.keys, Function.comp_def]
  · intro k h
    show GoMap.get (res.Responses.map (fun kv => (kv.1, toQueryResult kv.1 kv.2))) k = none
    rw [GoMap.get_map toQueryResult, h]
    rfl
  · intro k pRes h
    refine ⟨toQueryResult k pRes, ?_, ?_, ?_, ?_⟩
    · show GoMap.get (res.Responses.map (fun kv => (kv.1, toQueryResult kv.1 kv.2))) k = _
      rw [GoMap.get_map toQueryResult, h]
      rfl
    · unfold toQueryResult
      split_ifs <;> rfl
    · unfold toQueryResult
      split_ifs <;> rfl
    · unfold toQueryResult
      split_ifs with h1 h2 h2 <;> simp_all

/-- The metadata of the outcome built for one wire entry: unset exactly when
the entry's metadata bytes are empty, otherwise the `Json` that holds those
bytes. -/
theorem toQueryResult_meta (refID : String) (pRes : DataResponse) :
    ((toQueryResult refID pRes).Meta = none ↔ pRes.JsonMeta = []) ∧
      (pRes.JsonMeta ≠ [] →
        (toQueryResult refID pRes).Meta = some (Json.bytes pRes.JsonMeta)) := by
  constructor
  · unfold toQueryResult
    split_ifs with h1 h2 h2 <;> simp_all
  · intro hne
    have : pRes.JsonMeta.length ≠ 0 := by simpa using hne
    unfold toQueryResult
    split_ifs <;> rfl

theorem demo_calls (plugin : DataPlugin) :
    ∃ req, ({ demoWrapper with DataPlugin := plugin }.Query demoEnv demoDs demoQuery).calls
      = [req] :=
  calls_of_allSerialize demoEnv _ demoDs demoQuery [123, 125] rfl demo_allSerialize

/-- Instance of C4: `A` failed with `boom`, `B` returned two frames. -/
theorem query_result_set_witness :
    ∃ out, (demoWrapper.Query demoEnv demoDs demoQuery).result = .ok out ∧
      (∃ qr, out.Results.get "A" = some qr ∧ qr.RefId = "A" ∧ qr.Error ≠ none) ∧
      (∃ qr, out.Results.get "B" = some qr ∧ qr.Dataframes = [[1], [2]] ∧ qr.Error = none) ∧
      out.Results.get "C" = none := by
  obtain ⟨req, hreq⟩ := demo_calls demoPlugin
  obtain ⟨out, h₁, _, _, h₄, h₅⟩ :=
    query_result_set demoEnv demoWrapper demoDs demoQuery req demoResponse
      (by
        have : (demoWrapper.Query demoEnv demoDs demoQuery).calls = [req] := hreq
        rw [this]; exact List.mem_singleton_self req)
      rfl (by decide)
  refine ⟨out, h₁, ?_, ?_, h₄ "C" rfl⟩
  · obtain ⟨qr, g₁, g₂, _, g₄⟩ := h₅ "A" { Frames := [], Error := "boom", JsonMeta := [] } rfl
    exact ⟨qr, g₁, g₂, fun h => absurd (g₄.mp h) (by decide)⟩
  · obtain ⟨qr, g₁, _, g₃, g₄⟩ :=
      h₅ "B" { Frames := [[1], [2]], Error := "", JsonMeta := [123, 125] } rfl
    exact ⟨qr, g₁, g₃, g₄.mpr rfl⟩

/-- C3, at the failing input: the wire entry `B` has the metadata bytes `{}`.
The outcome's metadata is set, but to a `Json` that holds these two bytes,
not to the empty object obtained by decoding them. Entry `A`, with empty
metadata bytes, has its metadata unset. -/
theorem query_meta_raw_bytes :
    ∃ out qrA qrB, (demoWrapper.Query demoEnv demoDs demoQuery).result = .ok out ∧
      out.Results.get "A" = some qrA ∧ qrA.Meta = none ∧
      out.Results.get "B" = some qrB ∧ qrB.Meta = some (Json.bytes [123, 125]) ∧
      qrB.Meta ≠ some (Json.obj []) := by
  obtain ⟨req, hreq⟩ := demo_calls demoPlugin
  have h := query_result_ok demoEnv demoWrapper demoDs demoQuery req demoResponse
    (by
      have : (demoWrapper.Query demoEnv demoDs demoQuery).calls = [req] := hreq
      rw [this]; exact List.mem_singleton_self req)
    rfl (by decide)
  refine ⟨_, toQueryResult "A" { Frames := [], Error := "boom", JsonMeta := [] },
    toQueryResult "B" { Frames := [[1], [2]], Error := "", JsonMeta := [123, 125] },
    h, rfl, rfl, rfl, rfl, ?_⟩
  show some (Json.bytes [123, 125]) ≠ some (Json.obj [])
  intro e
  cases e

/-! ## The error text -/

theorem skipFlags_length (l : List Char) : (Fmt.skipFlags l).length ≤ l.length := by
  induction l with
  | nil => simp [Fmt.skipFlags]
  | cons c cs ih =>
    unfold Fmt.skipFlags
    split_ifs
    · exact Nat.le_succ_of_le ih
    · exact le_refl _

theorem parsenumLoop_length (l : List Char) :
    ∀ (num : Nat) (isnum : Bool), (Fmt.parsenumLoop l num isnum).2.2.length ≤ l.length := by
  induction l with
  | nil => intro num isnum; simp [Fmt.parsenumLoop]
  | cons c cs ih =>
    intro num isnum
    unfold Fmt.parsenumLoop
    split_ifs
    · simp
    · exact Nat.le_succ_of_le (ih _ _)
    · exact le_refl _

theorem argNumber_length (l : List Char) (g : Bool) :
    (Fmt.argNumber l g).1.length ≤ l.length := by
  unfold Fmt.argNumber
  split
  · simp
  · exact le_refl _

theorem width_length (l : List Char) (a g : Bool) :
    (Fmt.width l a g).2.1.length ≤ l.length := by
  unfold Fmt.width
  split
  · simp
  · exact parsenumLoop_length _ _ _

theorem precision_length (l : List Char) (a g : Bool) :
    (Fmt.precision l a g).2.1.length ≤ l.length := by
  unfold Fmt.precision
  split
  · rename_i rest
    simp only
    generalize (if a = true then false else g) = good
    have h₁ := argNumber_length rest good
    generalize Fmt.argNumber rest good = r at h₁ ⊢
    obtain ⟨l₁, f, g'⟩ := r
    simp only at h₁ ⊢
    split
    · simp only [List.length_cons] at h₁ ⊢
      omega
    · have h₂ := parsenumLoop_length l₁ 0 false
      simp only [List.length_cons, Fmt.parsenum]
      omega
  · exact le_refl _

theorem verb_length (l : List Char) (g : Bool) : (Fmt.verb l g).2.length ≤ l.length := by
  unfold Fmt.verb
  split
  · simp
  · split_ifs <;> simp

/-- One verb leaves no more of the format than it was given. -/
theorem verbStep_length (l : List Char) : (Fmt.verbStep l).2.length ≤ l.length := by
  unfold Fmt.verbStep
  have h₁ := skipFlags_length l
  have h₂ := argNumber_length (Fmt.skipFlags l) true
  have h₃ := width_length (Fmt.argNumber (Fmt.skipFlags l) true).1
    (Fmt.argNumber (Fmt.skipFlags l) true).2.1 (Fmt.argNumber (Fmt.skipFlags l) true).2.2
  simp only
  generalize Fmt.width (Fmt.argNumber (Fmt.skipFlags l) true).1
    (Fmt.argNumber (Fmt.skipFlags l) true).2.1 (Fmt.argNumber (Fmt.skipFlags l) true).2.2 = w
    at h₃ ⊢
  have h₄ := precision_length w.2.1 w.2.2.1 w.2.2.2
  generalize Fmt.precision w.2.1 w.2.2.1 w.2.2.2 = p at h₄ ⊢
  have h₅ := argNumber_length p.2.1 p.2.2.2
  split_ifs
  · refine le_trans (verb_length _ _) ?_
    show p.2.1.length ≤ l.length
    omega
  · refine le_trans (verb_length _ _) ?_
    omega

/-- The format loop does not run out of fuel: from `len(format)` rounds on,
more fuel does not change the result. -/
theorem doPrintf_fuel (n : Nat) :
    ∀ (l : List Char) (m : Nat), l.length ≤ n → l.length ≤ m →
      Fmt.doPrintf n l = Fmt.doPrintf m l := by
  induction n with
  | zero =>
    intro l m hn _
    have : l = [] := List.length_eq_zero.mp (Nat.le_zero.mp hn)
    subst this
    cases m <;> rfl
  | succ n ih =>
    intro l m hn hm
    cases l with
    | nil => cases m <;> rfl
    | cons c cs =>
      cases m with
      | zero => simp at hm
      | succ m =>
        simp only [List.length_cons, Nat.succ_le_succ_iff] at hn hm
        simp only [Fmt.doPrintf]
        split_ifs
        · have h := verbStep_length cs
          rw [ih _ m (le_trans h hn) (le_trans h hm)]
        · rw [ih _ m hn hm]


theorem doPrintf_of_no_percent (l : List Char) :
    ∀ fuel, l.length ≤ fuel → '%' ∉ l → Fmt.doPrintf fuel l = l := by
  induction l with
  | nil => intro fuel _ _; cases fuel <;> rfl
  | cons c cs ih =>
    intro fuel hf hp
    cases fuel with
    | zero => simp at hf
    | succ n =>
      simp only [List.mem_cons, not_or] at hp
      have hc : ¬ c = '%' := fun e => hp.1 e.symm
      simp only [Fmt.doPrintf, hc, if_false]
      rw [ih n (by simpa using hf) hp.2]

/-- A text without `%` is its own formatting: for such an error string the
error built by `fmt.Errorf` has the same message. -/
theorem errorf_of_no_percent (s : String) (h : '%' ∉ s.toList) : Fmt.Errorf s = { msg := s } := by
  unfold Fmt.Errorf Fmt.Sprintf
  rw [doPrintf_of_no_percent s.toList _ (le_refl _) h]
  rfl

/-- C2, at the failing input: the plugin reports the error string
`disk 100%` for `A`; the outcome keeps it as raw string, but the message of
the structured error is `disk 100%!(NOVERB)`. -/
theorem query_error_text_percent :
    ∃ out qr,
      ({ demoWrapper with DataPlugin := percentPlugin }.Query demoEnv demoDs demoQuery).result
        = .ok out ∧
      out.Results.get "A" = some qr ∧
      qr.ErrorString = "disk 100%" ∧
      qr.Error = some { msg := "disk 100%!(NOVERB)" } ∧
      qr.Error ≠ some { msg := qr.ErrorString } := by
  obtain ⟨req, hreq⟩ := demo_calls percentPlugin
  have h := query_result_ok demoEnv { demoWrapper with DataPlugin := percentPlugin } demoDs
    demoQuery req
    { Responses := [("A", { Frames := [], Error := "disk 100%", JsonMeta := [] })] }
    (by rw [hreq]; exact List.mem_singleton_self req) rfl (by decide)
  refine ⟨_, toQueryResult "A" { Frames := [], Error := "disk 100%", JsonMeta := [] },
    h, rfl, by decide, by decide, by decide⟩

end Wrapper

/-! # Properties of the sort-option registry -/

namespace Search

theorem GoMap.get_set {V : Type} (m : GoMap V) (k : String) (v : V) (k' : String) :
    GoMap.get (GoMap.set m k v) k' = if k = k' then some v else GoMap.get m k' := by
  induction m with
  | nil => simp [GoMap.set, GoMap.get]
  | cons kv rest ih =>
    obtain ⟨k₀, v₀⟩ := kv
    by_cases h : k₀ = k
    · subst h
      simp only [GoMap.set, GoMap.get, if_true]
      split_ifs <;> rfl
    · by_cases h' : k₀ = k'
      · subst h'
        simp [GoMap.set, GoMap.get, h, Ne.symm h]
      · simp [GoMap.set, GoMap.get, h, h', ih]

theorem GoMap.mem_set {V : Type} (m : GoMap V) (k : String) (v : V) (kv : String × V)
    (h : kv ∈ GoMap.set m k v) : kv = (k, v) ∨ kv ∈ m := by
  induction m with
  | nil => simpa [GoMap.set] using h
  | cons e rest ih =>
    obtain ⟨k₀, v₀⟩ := e
    by_cases hk : k₀ = k
    · simp only [GoMap.set, hk, if_true, List.mem_cons] at h
      rcases h with h | h
      · exact Or.inl h
      · exact Or.inr (List.mem_cons_of_mem _ h)
    · simp only [GoMap.set, hk, if_false, List.mem_cons] at h
      rcases h with h | h
      · exact Or.inr (by rw [h]; exact List.mem_cons_self _ _)
      · rcases ih h with h | h
        · exact Or.inl h
        · exact Or.inr (List.mem_cons_of_mem _ h)

theorem GoMap.keys_set {V : Type} (m : GoMap V) (k : String) (v : V) :
    (GoMap.set m k v).keys = if k ∈ m.keys then m.keys else m.keys ++ [k] := by
  induction m with
  | nil => simp [GoMap.set, GoMap.keys]
  | cons e rest ih =>
    obtain ⟨k₀, v₀⟩ := e
    by_cases hk : k₀ = k
    · subst hk
      simp [GoMap.set, GoMap.keys]
    · have hk' : ¬ k = k₀ := fun e => hk e.symm
      simp only [GoMap.keys] at ih
      simp only [GoMap.set, hk, if_false, GoMap.keys, List.map_cons, List.mem_cons, hk',
        false_or, ih]
      split_ifs <;> simp

theorem GoMap.nodup_keys_set {V : Type} (m : GoMap V) (k : String) (v : V)
    (h : m.keys.Nodup) : (GoMap.set m k v).keys.Nodup := by
  rw [GoMap.keys_set]
  split_ifs with hk
  · exact h
  · exact List.Nodup.append h (List.nodup_singleton k) (by simpa using hk)

theorem GoMap.mem_iff_get {V : Type} (m : GoMap V) (h : m.keys.Nodup) (k : String) (v : V) :
    (k, v) ∈ m ↔ GoMap.get m k = some v := by
  induction m with
  | nil => simp [GoMap.get]
  | cons e rest ih =>
    obtain ⟨k₀, v₀⟩ := e
    simp only [GoMap.keys, List.map_cons, List.nodup_cons] at h
    by_cases hk : k₀ = k
    · subst hk
      simp only [List.mem_cons, Prod.mk.injEq, true_and, GoMap.get, if_true, Option.some.injEq]
      constructor
      · rintro (e | hm)
        · exact e.symm
        · exact absurd (List.mem_map_of_mem Prod.fst hm) h.1
      · intro e
        exact Or.inl e.symm
    · have hk' : ¬ k = k₀ := fun e => hk e.symm
      simp only [List.mem_cons, Prod.mk.injEq, hk', false_and, false_or, GoMap.get, hk, if_false]
      exact ih h.2

theorem wellFormed_empty : SearchService.empty.WellFormed :=
  ⟨List.nodup_nil, fun kv h => absurd h (List.not_mem_nil kv)⟩

theorem wellFormed_register (s : SearchService) (o : SortOption) (h : s.WellFormed) :
    (s.RegisterSortOption o).WellFormed := by
  refine ⟨GoMap.nodup_keys_set _ _ _ h.1, ?_⟩
  intro kv hkv
  rcases GoMap.mem_set _ _ _ kv hkv with e | hm
  · rw [e]
  · exact h.2 kv hm

theorem wellFormed_registerAll (ops : List SortOption) :
    ∀ s : SearchService, s.WellFormed → (registerAll s ops).WellFormed := by
  induction ops with
  | nil => intro s h; exact h
  | cons o rest ih =>
    intro s h
    exact ih _ (wellFormed_register s o h)

theorem get_registerAll (ops : List SortOption) :
    ∀ (s : SearchService) (k : String),
      GoMap.get (registerAll s ops).sortOptions k
        = (ops.reverse.find? (fun p => p.Name = k)).or (GoMap.get s.sortOptions k) := by
  induction ops with
  | nil => intro s k; simp [registerAll]
  | cons o rest ih =>
    intro s k
    have hstep : registerAll s (o :: rest) = registerAll (s.RegisterSortOption o) rest := rfl
    rw [hstep, ih, List.reverse_cons, List.find?_append]
    simp only [SearchService.RegisterSortOption, GoMap.get_set]
    cases rest.reverse.find? (fun p => decide (p.Name = k)) with
    | some p => simp
    | none =>
      by_cases hk : o.Name = k
      · simp [hk, List.find?]
      · simp [hk, List.find?]

theorem less_iff (a b : SortOption) :
    decide (a.Name.toList < b.Name.toList) = true ↔ a.Name < b.Name := by
  rw [decide_eq_true_iff, String.lt_iff_toList_lt]

theorem not_less_iff (a b : SortOption) :
    decide (b.Name.toList < a.Name.toList) = false ↔ a.Name ≤ b.Name := by
  rw [decide_eq_false_iff_not, ← String.lt_iff_toList_lt, not_lt]

theorem sortOptions_perm (s : SearchService) :
    s.SortOptions.Perm (s.sortOptions.map Prod.snd) :=
  List.perm_insertionSort _ _

theorem sortOptions_sorted (s : SearchService) :
    s.SortOptions.Pairwise (fun a b => a.Name ≤ b.Name) := by
  haveI : IsTotal SortOption (fun a b => decide (b.Name.toList < a.Name.toList) = false) :=
    ⟨fun a b => by
      rw [not_less_iff, not_less_iff]
      exact le_total _ _⟩
  haveI : IsTrans SortOption (fun a b => decide (b.Name.toList < a.Name.toList) = false) :=
    ⟨fun a b c => by
      rw [not_less_iff, not_less_iff, not_less_iff]
      exact le_trans⟩
  have h := List.sorted_insertionSort
    (fun a b : SortOption => decide (b.Name.toList < a.Name.toList) = false)
    (s.sortOptions.map Prod.snd)
  exact List.Pairwise.imp (fun {a b} hab => (not_less_iff a b).mp hab) h

theorem names_eq_keys (s : SearchService) (h : s.WellFormed) :
    (s.sortOptions.map Prod.snd).map (fun o => o.Name) = s.sortOptions.keys := by
  rw [List.map_map]
  exact List.map_congr_left (fun kv hkv => (h.2 kv hkv).symm)

theorem sortOptions_names_nodup (s : SearchService) (h : s.WellFormed) :
    (s.SortOptions.map (fun o => o.Name)).Nodup := by
  have hp := (sortOptions_perm s).map (fun o => o.Name)
  rw [hp.nodup_iff, names_eq_keys s h]
  exact h.1

theorem sortOptions_pairwise (s : SearchService) (h : s.WellFormed) :
    s.SortOptions.Pairwise (fun a b => a.Name < b.Name) := by
  have h₁ := sortOptions_sorted s
  have h₂ : s.SortOptions.Pairwise (fun a b => a.Name ≠ b.Name) :=
    List.pairwise_map.mp (sortOptions_names_nodup s h)
  exact (h₁.and h₂).imp (fun hab => lt_of_le_of_ne hab.1 hab.2)

theorem mem_sortOptions (s : SearchService) (h : s.WellFormed) (o : SortOption) :
    o ∈ s.SortOptions ↔ GoMap.get s.sortOptions o.Name = some o := by
  rw [(sortOptions_perm s).mem_iff, ← GoMap.mem_iff_get _ h.1]
  constructor
  · intro hm
    obtain ⟨kv, hkv, e⟩ := List.mem_map.mp hm
    have := h.2 kv hkv
    rw [e] at this
    rw [← this, ← e]
    exact hkv
  · intro hm
    exact List.mem_map.mpr ⟨_, hm, rfl⟩

/-- Two lists with the same elements that are both strictly ascending by
`Name` are equal: the outcome of sorting does not depend on the algorithm. -/
theorem sorted_perm_unique (l₁ l₂ : List SortOption) (hp : l₁.Perm l₂)
    (h₁ : l₁.Pairwise (fun a b => a.Name < b.Name))
    (h₂ : l₂.Pairwise (fun a b => a.Name < b.Name)) : l₁ = l₂ := by
  haveI : IsAntisymm SortOption (fun a b => a.Name < b.Name) :=
    ⟨fun a b hab hba => absurd hba (lt_asymm hab)⟩
  exact List.eq_of_perm_of_sorted hp h₁ h₂

theorem wellFormed_of_perm (s : SearchService) (h : s.WellFormed) (m : GoMap SortOption)
    (hp : m.Perm s.sortOptions) : SearchService.WellFormed { sortOptions := m } :=
  ⟨((hp.map Prod.fst).nodup_iff).mpr h.1, fun kv hkv => h.2 kv (hp.mem_iff.mp hkv)⟩

theorem lastRegistered_iff_mem (ops : List SortOption)
    (hn : (ops.map (fun o => o.Name)).Nodup) (o : SortOption) :
    lastRegistered ops o ↔ o ∈ ops := by
  unfold lastRegistered
  constructor
  · intro h
    exact List.mem_reverse.mp (List.mem_of_find?_eq_some h)
  · intro ho
    cases hf : ops.reverse.find? (fun p => decide (p.Name = o.Name)) with
    | none =>
      have := List.find?_eq_none.mp hf o (List.mem_reverse.mpr ho)
      simp at this
    | some p =>
      have hp : p ∈ ops := List.mem_reverse.mp (List.mem_of_find?_eq_some hf)
      have hname : p.Name = o.Name := by simpa using List.find?_some hf
      rw [List.inj_on_of_nodup_map hn hp ho hname]

/-- C10, counterexample: two options registered under the same name. The
first one registered is not returned, and the outcome depends on the order of
the two calls. -/
theorem sortOptions_same_name :
    recentFirst ∈ [recentFirst, recentSecond] ∧
      recentFirst ∉ (registerAll SearchService.empty [recentFirst, recentSecond]).SortOptions ∧
      (registerAll SearchService.empty [recentFirst, recentSecond]).SortOptions
        = [recentSecond] ∧
      (registerAll SearchService.empty [recentSecond, recentFirst]).SortOptions
        = [recentFirst] := by
  decide

/-- C10, amended: after any sequence of `RegisterSortOption` calls on a
service with an empty registry, `SortOptions` returns, in strictly ascending
order of `Name` and each exactly once, the options that were the last to be
registered under their name, whatever the iteration order of the map. When
the registered names are pairwise distinct these are all registered options,
and the outcome does not depend on the order of the calls. -/
theorem sortOptions_registered (ops : List SortOption) :
    (registerAll SearchService.empty ops).SortOptions.Pairwise (fun a b => a.Name < b.Name) ∧
    (registerAll SearchService.empty ops).SortOptions.Nodup ∧
    (∀ o, o ∈ (registerAll SearchService.empty ops).SortOptions ↔ lastRegistered ops o) ∧
    (∀ m : GoMap SortOption, m.Perm (registerAll SearchService.empty ops).sortOptions →
      SearchService.SortOptions { sortOptions := m }
        = (registerAll SearchService.empty ops).SortOptions) ∧
    ((ops.map (fun o => o.Name)).Nodup →
      (registerAll SearchService.empty ops).SortOptions.Perm ops ∧
      ∀ ops' : List SortOption, ops'.Perm ops →
        (registerAll SearchService.empty ops').SortOptions
          = (registerAll SearchService.empty ops).SortOptions) := by
  have hwf := wellFormed_registerAll ops _ wellFormed_empty
  have hpw := sortOptions_pairwise _ hwf
  have hnd : (registerAll SearchService.empty ops).SortOptions.Nodup :=
    hpw.imp (fun {a b} hab e => by rw [e] at hab; exact lt_irrefl _ hab)
  have hmem : ∀ o, o ∈ (registerAll SearchService.empty ops).SortOptions
      ↔ lastRegistered ops o := by
    intro o
    rw [mem_sortOptions _ hwf, get_registerAll]
    unfold lastRegistered
    simp [SearchService.empty, GoMap.get]
  refine ⟨hpw, hnd, hmem, ?_, ?_⟩
  · intro m hm
    have hwf' := wellFormed_of_perm _ hwf m hm
    refine sorted_perm_unique _ _ ?_ (sortOptions_pairwise _ hwf') hpw
    exact ((sortOptions_perm _).trans (hm.map Prod.snd)).trans (sortOptions_perm _).symm
  · intro hn
    have hperm : (registerAll SearchService.empty ops).SortOptions.Perm ops :=
      (List.perm_ext_iff_of_nodup hnd (List.Nodup.of_map _ hn)).mpr
        (fun o => (hmem o).trans (lastRegistered_iff_mem ops hn o))
    refine ⟨hperm, ?_⟩
    intro ops' hp'
    have hn' : (ops'.map (fun o => o.Name)).Nodup := ((hp'.map _).nodup_iff).mpr hn
    have hwf' := wellFormed_registerAll ops' _ wellFormed_empty
    have hpw' := sortOptions_pairwise _ hwf'
    have hnd' : (registerAll SearchService.empty ops').SortOptions.Nodup :=
      hpw'.imp (fun {a b} hab e => by rw [e] at hab; exact lt_irrefl _ hab)
    have hmem' : ∀ o, o ∈ (registerAll SearchService.empty ops').SortOptions ↔ o ∈ ops' := by
      intro o
      rw [mem_sortOptions _ hwf', get_registerAll, ← lastRegistered_iff_mem ops' hn' o]
      unfold lastRegistered
      simp [SearchService.empty, GoMap.get]
    have hperm' : (registerAll SearchService.empty ops').SortOptions.Perm ops' :=
      (List.perm_ext_iff_of_nodup hnd' (List.Nodup.of_map _ hn')).mpr hmem'
    exact sorted_perm_unique _ _ ((hperm'.trans hp').trans hperm.symm) hpw' hpw

/-- Instance of C10 (amended): the two built-in options and a third one,
registered in descending order, come back in ascending order. -/
theorem sortOptions_registered_witness :
    ([sortAlphaDesc, sortAlphaAsc].map (fun o => o.Name)).Nodup ∧
      (registerAll SearchService.empty [sortAlphaDesc, sortAlphaAsc]).SortOptions
        = [sortAlphaAsc, sortAlphaDesc] ∧
      (registerAll SearchService.empty [sortAlphaDesc, sortAlphaAsc]).SortOptions.Perm
        [sortAlphaDesc, sortAlphaAsc] :=
  ⟨by decide, by decide,
    ((sortOptions_registered [sortAlphaDesc, sortAlphaAsc]).2.2.2.2 (by decide)).1⟩

end Search
